import Mathlib

/-!
Verification of the Pixi-React interactive-plots repository.

The source is embedded shallowly: numbers are exact rationals (ℚ),
component state is passed explicitly, and each pointer-event handler of
`src/src/components/RightPlot.tsx` / `LeftPlot.tsx` becomes a pure Lean
function on that state.
-/

namespace PixiPlots

/-- A depth–velocity layer (`interface Layer` in RightPlot.tsx). -/
structure Layer where
  startDepth : ℚ
  endDepth : ℚ
  velocity : ℚ
  deriving Repr, DecidableEq

/-- Axis bounds (`axisLimits` state in both panels). -/
structure AxisLimits where
  xmin : ℚ
  xmax : ℚ
  ymin : ℚ
  ymax : ℚ
  deriving Repr, DecidableEq

/-- Canvas size in pixels (`plotDimensions` state). -/
structure Dims where
  width : ℚ
  height : ℚ
  deriving Repr, DecidableEq

/-- Hover kinds (field `type` of `interface HoveredLine`). -/
inductive HKind where
  | depth
  | velocity
  deriving Repr, DecidableEq

/-- `interface HoveredLine` of RightPlot.tsx (both optional coordinates are
always set on the code paths modelled here, so they are plain fields). -/
structure HoveredLine where
  kind : HKind
  value : ℚ
  y : ℚ
  x : ℚ
  deriving Repr, DecidableEq

/-- `interface DragState` of RightPlot.tsx. -/
structure DragState where
  layerIndex : ℕ
  isBoundary : Bool
  isDragging : Bool
  deriving Repr, DecidableEq

/-! ## Coordinate mapper (`coordinateHelpers`, RightPlot.tsx lines 60–65) -/

/-- `toScreenX: (value) => ((value - xmin) / (xmax - xmin)) * width` -/
def toScreenX (A : AxisLimits) (D : Dims) (v : ℚ) : ℚ :=
  (v - A.xmin) / (A.xmax - A.xmin) * D.width

/-- `toScreenY: (value) => ((value - ymin) / (ymax - ymin)) * height` -/
def toScreenY (A : AxisLimits) (D : Dims) (v : ℚ) : ℚ :=
  (v - A.ymin) / (A.ymax - A.ymin) * D.height

/-- `fromScreenX: (x) => xmin + (x / width) * (xmax - xmin)` -/
def fromScreenX (A : AxisLimits) (D : Dims) (x : ℚ) : ℚ :=
  A.xmin + x / D.width * (A.xmax - A.xmin)

/-- `fromScreenY: (y) => ymin + (y / height) * (ymax - ymin)` -/
def fromScreenY (A : AxisLimits) (D : Dims) (y : ℚ) : ℚ :=
  A.ymin + y / D.height * (A.ymax - A.ymin)

/-! ## Layer-list invariant -/

/-- The shared-boundary adjacency invariant: each layer's `endDepth` equals
the next layer's `startDepth`. -/
def adjacent (ls : List Layer) : Prop :=
  ∀ i a b, ls[i]? = some a → ls[i + 1]? = some b → a.endDepth = b.startDepth

/-! ## Boundary drag (`handlePointerMove`, boundary branch, lines 271–330)

The handler reaches this code only when `dragState.isDragging` and
`layers.length > 0` (the guard on line 206 returns into hover handling
otherwise).  `newLayers = [...layers]` is a shallow copy, so the in-place
field assignments below amount to `List.set` at the written index. -/

/-- The boundary branch of `handlePointerMove` for drag index `k`:
* `k == 0`: `layers[0].startDepth = min(layers[0].endDepth - 0.1, newDepth)`;
* `k == layers.length`: writes the last layer's `endDepth`, clamped to
  `max(lastLayer.startDepth + 0.1, newDepth)`;
* otherwise: clamps to
  `max(prev.startDepth + 0.1, min(next.endDepth - 0.1, newDepth))` and writes
  both `layers[k-1].endDepth` and `layers[k].startDepth`.
The fallback arms return the list unchanged; the source would fault there
(indexing `undefined`), and no theorem below relies on them. -/
def boundaryDrag (A : AxisLimits) (D : Dims) (k : ℕ) (y : ℚ) (ls : List Layer) :
    List Layer :=
  let newDepth := fromScreenY A D y
  if k = 0 then
    match ls[0]? with
    | none => ls
    | some l0 =>
        ls.set 0 { l0 with startDepth := min (l0.endDepth - 1/10) newDepth }
  else if k = ls.length then
    match ls.getLast? with
    | none => ls
    | some last =>
        ls.set (ls.length - 1)
          { last with endDepth := max (last.startDepth + 1/10) newDepth }
  else
    match ls[k - 1]?, ls[k]? with
    | some p, some n =>
        let c := max (p.startDepth + 1/10) (min (n.endDepth - 1/10) newDepth)
        (ls.set (k - 1) { p with endDepth := c }).set k { n with startDepth := c }
    | _, _ => ls

/-! ## Velocity drag (`handlePointerMove`, velocity branch, lines 254–270) -/

/-- The velocity branch of `handlePointerMove`: computes
`newVelocity = fromScreenX(x)`, clamps it via
`Math.max(xmin, Math.min(xmax, newVelocity))`, writes
`layers[i].velocity`, and publishes the tooltip
`{type: velocity, value: constrained, y, x: toScreenX(constrained)}`.
Returns the updated layer list together with the published hover line. -/
def velocityDrag (A : AxisLimits) (D : Dims) (i : ℕ) (x y : ℚ)
    (ls : List Layer) : List Layer × HoveredLine :=
  let newVelocity := fromScreenX A D x
  let constrained := max A.xmin (min A.xmax newVelocity)
  let ls' := match ls[i]? with
    | some l => ls.set i { l with velocity := constrained }
    | none => ls
  (ls', ⟨HKind.velocity, constrained, y, toScreenX A D constrained⟩)

/-! ## Pointer up (`handlePointerUp`, lines 333–335; also the inline
`onPointerUp={() => setDragState(null)}` on line 447).  Registered on
`window`, so it fires wherever the pointer is released. -/

/-- `handlePointerUp = () => setDragState(null)`. -/
def handlePointerUp (_s : Option DragState) : Option DragState := none

/-! ## Hover engine (`handlePointerMove`, not-dragging branch, lines 206–249)

Both loops are `forEach` passes that overwrite the hovered line on every
match, so the published hover is the LAST matching element; the `found`
flag only decides whether the velocity pass runs and whether the hover is
cleared at the end. -/

/-- The black-line pass (lines 211–225): for index 0 the checked depth is
`layer.startDepth`, for every other index it is `layer.endDepth`;
a match is `Math.abs(y - startY) < 10`. -/
def depthScan (A : AxisLimits) (D : Dims) (x y : ℚ) :
    ℕ → List Layer → Option HoveredLine → Option HoveredLine
  | _, [], acc => acc
  | i, l :: rest, acc =>
      let checked := if i = 0 then l.startDepth else l.endDepth
      let startY := toScreenY A D checked
      depthScan A D x y (i + 1) rest
        (if |y - startY| < 10 then some ⟨HKind.depth, checked, startY, x⟩ else acc)

/-- The red-line pass (lines 228–244): a match is
`Math.abs(x - lineX) < 10 && y >= startY && y <= endY`. -/
def velScan (A : AxisLimits) (D : Dims) (x y : ℚ) :
    List Layer → Option HoveredLine → Option HoveredLine
  | [], acc => acc
  | l :: rest, acc =>
      let lineX := toScreenX A D l.velocity
      let startY := toScreenY A D l.startDepth
      let endY := toScreenY A D l.endDepth
      velScan A D x y rest
        (if |x - lineX| < 10 ∧ startY ≤ y ∧ y ≤ endY then
          some ⟨HKind.velocity, l.velocity, y, lineX⟩
        else acc)

/-- The whole not-dragging branch: the velocity pass runs only when the
depth pass found nothing, and the hover is `null` when neither matched. -/
def hoverScan (A : AxisLimits) (D : Dims) (ls : List Layer) (x y : ℚ) :
    Option HoveredLine :=
  match depthScan A D x y 0 ls none with
  | some h => some h
  | none => velScan A D x y ls none

/-! ## Layer split -/

/-- Shift-click on a velocity line (`handlePointerDown`, lines 168–196):
`newDepth = fromScreenY(y)`; the split happens only when
`newDepth > layer.startDepth && newDepth < layer.endDepth` (strict), and
`splice(layerIndex, 1, upperLayer, lowerLayer)` replaces the layer with
its two halves.  Otherwise the layer list is left unchanged (the handler
then starts a drag instead). -/
def splitAtVelocityLine (A : AxisLimits) (D : Dims) (i : ℕ) (y : ℚ)
    (ls : List Layer) : List Layer :=
  let newDepth := fromScreenY A D y
  match ls[i]? with
  | none => ls
  | some layer =>
      if layer.startDepth < newDepth ∧ newDepth < layer.endDepth then
        ls.take i ++
          [⟨layer.startDepth, newDepth, layer.velocity⟩,
           ⟨newDepth, layer.endDepth, layer.velocity⟩] ++
          ls.drop (i + 1)
      else ls

/-- Loop body of `handlePlotClick` (lines 345–372): finds the FIRST layer
whose closed screen span satisfies `y >= startY && y <= endY`, splices its
two halves in, and breaks. -/
def plotClickSplitAux (A : AxisLimits) (D : Dims) (y : ℚ) :
    List Layer → List Layer
  | [] => []
  | layer :: rest =>
      let startY := toScreenY A D layer.startDepth
      let endY := toScreenY A D layer.endDepth
      if startY ≤ y ∧ y ≤ endY then
        let newDepth := fromScreenY A D y
        ⟨layer.startDepth, newDepth, layer.velocity⟩ ::
        ⟨newDepth, layer.endDepth, layer.velocity⟩ :: rest
      else layer :: plotClickSplitAux A D y rest

/-- `handlePlotClick` (lines 338–374): only acts on a shift-click with a
non-empty layer list. -/
def handlePlotClick (A : AxisLimits) (D : Dims) (shiftKey : Bool) (y : ℚ)
    (ls : List Layer) : List Layer :=
  if shiftKey ∧ 0 < ls.length then plotClickSplitAux A D y ls else ls

/-! ## Axis-bound edits -/

/-- Which of the four bounds an input field edits. -/
inductive Axis where
  | xmin
  | xmax
  | ymin
  | ymax
  deriving Repr, DecidableEq

/-- `{ ...prev, [axis]: numValue }`. -/
def setAxis (L : AxisLimits) : Axis → ℚ → AxisLimits
  | Axis.xmin, v => { L with xmin := v }
  | Axis.xmax, v => { L with xmax := v }
  | Axis.ymin, v => { L with ymin := v }
  | Axis.ymax, v => { L with ymax := v }

/-- `handleAxisLimitChange` of LeftPlot.tsx (lines 91–105), after the
`isNaN` guard (so `v` is an already-parsed number): builds the candidate
limits and keeps the previous value when
`newLimits.xmin >= newLimits.xmax || newLimits.ymin >= newLimits.ymax`. -/
def handleAxisLimitChange (prev : AxisLimits) (axis : Axis) (v : ℚ) :
    AxisLimits :=
  let newLimits := setAxis prev axis v
  if newLimits.xmax ≤ newLimits.xmin ∨ newLimits.ymax ≤ newLimits.ymin then prev
  else newLimits

/-- The RightPlot axis inputs (lines 391, 401, 413, 423) call
`setAxisLimits(prev => ({ ...prev, field: parseFloat(...) }))` directly,
with no ordering validation at all. -/
def rightPlotAxisChange (prev : AxisLimits) (axis : Axis) (v : ℚ) :
    AxisLimits :=
  setAxis prev axis v

/-! ## File ingestion (`handleFileSelect`, RightPlot.tsx lines 116–162) -/

/-- JavaScript `str.split(sep)` for a one-character separator, on the
character list of the string: keeps empty fragments, so
`"a\nb\n".split("\n") = ["a", "b", ""]` and `"".split("\n") = [""]`. -/
def jsSplitChar (sep : Char) : List Char → List (List Char)
  | [] => [[]]
  | c :: rest =>
      if c = sep then [] :: jsSplitChar sep rest
      else
        match jsSplitChar sep rest with
        | h :: t => (c :: h) :: t
        | [] => [[c]]

/-- JavaScript `str.trim()`: strips leading and trailing whitespace. -/
def jsTrim (cs : List Char) : List Char :=
  ((cs.dropWhile Char.isWhitespace).reverse.dropWhile Char.isWhitespace).reverse

/-- Value of a digit string (most significant first). -/
def digitsVal (cs : List Char) : ℕ :=
  cs.foldl (fun a c => a * 10 + (c.toNat - 48)) 0

/-- JavaScript `Number(token)` for the unsigned decimal tokens this file
format uses: `""` converts to `0` (a JS quirk the trailing empty line
hits), `"208.308"` to the exact rational, and anything that is not digits
with at most one dot (`"."` included) to NaN (`none`). -/
def jsNumber (cs : List Char) : Option ℚ :=
  if cs = [] then some 0
  else
    match jsSplitChar '.' cs with
    | [w] =>
        if w ≠ [] ∧ w.all Char.isDigit then some (digitsVal w) else none
    | [w, f] =>
        if (w ≠ [] ∨ f ≠ []) ∧ w.all Char.isDigit ∧ f.all Char.isDigit then
          some ((digitsVal w : ℚ) + (digitsVal f : ℚ) / (10 ^ f.length))
        else none
    | _ => none

/-- One line of the layer file:
`const [depth, density, ignore, velocity] = line.trim().split(" ").map(Number)`
followed by the filter `!isNaN(item.depth) && !isNaN(item.velocity)`.
A missing token destructures to `undefined`, which `isNaN` also rejects,
so both cases collapse to `none`.  The `density` and `ignore` columns are
parsed but never used downstream, so the record keeps only
`(depth, velocity)`. -/
def parseLine (line : List Char) : Option (ℚ × ℚ) :=
  let toks := jsSplitChar ' ' (jsTrim line)
  match (toks[0]?).bind jsNumber, (toks[3]?).bind jsNumber with
  | some d, some v => some (d, v)
  | _, _ => none

/-- The pairing loop
`for (let i = 0; i < data.length - 1; i += 2) push({startDepth: data[i].depth, endDepth: data[i+1].depth, velocity: data[i].velocity})`:
consecutive pairs become one layer, a trailing unpaired record is
dropped. -/
def pairLayers : List (ℚ × ℚ) → List Layer
  | a :: b :: rest => ⟨a.1, b.1, a.2⟩ :: pairLayers rest
  | _ => []

/-- `handleFileSelect`, restricted to the layer list it commits: splits the
text on newlines, parses and filters the records, and — only when at least
one record survived (`data.length > 0`) — commits the paired layers.
`none` means the handler left the `layers` state untouched. -/
def ingestLayerFile (text : String) : Option (List Layer) :=
  let data := (jsSplitChar '\n' text.toList).filterMap parseLine
  if data.isEmpty then none else some (pairLayers data)

/-! ## Helper lemmas -/

theorem lt_length_of_some {α : Type} {l : List α} {i : ℕ} {a : α}
    (h : l[i]? = some a) : i < l.length := by
  by_contra hc
  rw [List.getElem?_eq_none (by omega)] at h
  exact Option.noConfusion h

/-- Clamp used by the middle-boundary branch:
`Math.max(minDepth, Math.min(maxDepth, newDepth))` with
`minDepth = prev.startDepth + 0.1`, `maxDepth = next.endDepth - 0.1`. -/
def midClamp (p n : Layer) (nd : ℚ) : ℚ :=
  max (p.startDepth + 1/10) (min (n.endDepth - 1/10) nd)

theorem boundaryDrag_zero (A : AxisLimits) (D : Dims) (y : ℚ) (ls : List Layer)
    (l0 : Layer) (h : ls[0]? = some l0) :
    boundaryDrag A D 0 y ls =
      ls.set 0 { l0 with startDepth := min (l0.endDepth - 1/10) (fromScreenY A D y) } := by
  unfold boundaryDrag
  rw [if_pos rfl, h]

theorem boundaryDrag_last (A : AxisLimits) (D : Dims) (y : ℚ) (ls : List Layer)
    (last : Layer) (h0 : ls.length ≠ 0) (hl : ls.getLast? = some last) :
    boundaryDrag A D ls.length y ls =
      ls.set (ls.length - 1)
        { last with endDepth := max (last.startDepth + 1/10) (fromScreenY A D y) } := by
  unfold boundaryDrag
  rw [if_neg h0, if_pos rfl, hl]

theorem boundaryDrag_mid (A : AxisLimits) (D : Dims) (y : ℚ) (ls : List Layer)
    (k : ℕ) (p n : Layer) (h0 : k ≠ 0) (hne : k ≠ ls.length)
    (hp : ls[k - 1]? = some p) (hq : ls[k]? = some n) :
    boundaryDrag A D k y ls =
      (ls.set (k - 1)
          { p with endDepth := midClamp p n (fromScreenY A D y) }).set k
        { n with startDepth := midClamp p n (fromScreenY A D y) } := by
  unfold boundaryDrag midClamp
  rw [if_neg h0, if_neg hne, hp, hq]

/-! ## Claim theorems -/

/-- C1: every boundary-drag commit of `handlePointerMove` — at index 0, at a
middle index, or at the last index — preserves the adjacency invariant
`layers[i].endDepth == layers[i+1].startDepth`. -/
theorem C1_boundaryDrag_preserves_adjacent (A : AxisLimits) (D : Dims)
    (k : ℕ) (y : ℚ) (ls : List Layer)
    (hk : k ≤ ls.length) (hadj : adjacent ls) :
    adjacent (boundaryDrag A D k y ls) := by
  by_cases h0 : k = 0
  · subst h0
    cases hls : ls[0]? with
    | none =>
        unfold boundaryDrag
        rw [if_pos rfl, hls]
        exact hadj
    | some l0 =>
        rw [boundaryDrag_zero A D y ls l0 hls]
        intro i a b ha hb
        rcases Nat.eq_zero_or_pos i with hi | hi
        · subst hi
          rw [List.getElem?_set_self (lt_length_of_some hls)] at ha
          rw [List.getElem?_set_ne (by omega)] at hb
          have ha' := Option.some.inj ha
          subst ha'
          exact hadj 0 l0 b hls hb
        · rw [List.getElem?_set_ne (by omega)] at ha
          rw [List.getElem?_set_ne (by omega)] at hb
          exact hadj i a b ha hb
  · by_cases hlen : k = ls.length
    · subst hlen
      cases hlast : ls.getLast? with
      | none =>
          unfold boundaryDrag
          rw [if_neg h0, if_pos rfl, hlast]
          exact hadj
      | some last =>
          rw [boundaryDrag_last A D y ls last h0 hlast]
          intro i a b ha hb
          by_cases him : i = ls.length - 1
          · exfalso
            rw [List.getElem?_eq_none (by rw [List.length_set]; omega)] at hb
            exact Option.noConfusion hb
          · by_cases him1 : i + 1 = ls.length - 1
            · rw [List.getElem?_set_ne (by omega)] at ha
              rw [him1, List.getElem?_set_self (by omega)] at hb
              have hb' := Option.some.inj hb
              subst hb'
              have hlast' : ls[i + 1]? = some last := by
                rw [him1, ← List.getLast?_eq_getElem?]
                exact hlast
              exact hadj i a last ha hlast'
            · rw [List.getElem?_set_ne (by omega)] at ha
              rw [List.getElem?_set_ne (by omega)] at hb
              exact hadj i a b ha hb
    · obtain ⟨p, hp⟩ : ∃ p, ls[k - 1]? = some p := by
        rw [List.getElem?_eq_getElem (by omega)]
        exact ⟨_, rfl⟩
      obtain ⟨n, hq⟩ : ∃ n, ls[k]? = some n := by
        rw [List.getElem?_eq_getElem (by omega)]
        exact ⟨_, rfl⟩
      rw [boundaryDrag_mid A D y ls k p n h0 hlen hp hq]
      intro i a b ha hb
      by_cases hik : i = k
      · subst hik
        rw [List.getElem?_set_self (by rw [List.length_set]; exact lt_length_of_some hq)] at ha
        have ha' := Option.some.inj ha
        subst ha'
        rw [List.getElem?_set_ne (by omega), List.getElem?_set_ne (by omega)] at hb
        exact hadj i n b hq hb
      · by_cases hik1 : i + 1 = k
        · rw [List.getElem?_set_ne (by omega)] at ha
          have hieq : i = k - 1 := by omega
          rw [hieq, List.getElem?_set_self (by omega)] at ha
          have ha' := Option.some.inj ha
          subst ha'
          rw [hik1, List.getElem?_set_self (by rw [List.length_set]; exact lt_length_of_some hq)] at hb
          have hb' := Option.some.inj hb
          subst hb'
          rfl
        · by_cases hik2 : i + 1 = k - 1
          · rw [List.getElem?_set_ne (by omega), List.getElem?_set_ne (by omega)] at ha
            rw [List.getElem?_set_ne (by omega), hik2, List.getElem?_set_self (by omega)] at hb
            have hb' := Option.some.inj hb
            subst hb'
            have hp' : ls[i + 1]? = some p := by
              rw [hik2]
              exact hp
            exact hadj i a p ha hp'
          · rw [List.getElem?_set_ne (by omega), List.getElem?_set_ne (by omega)] at ha
            rw [List.getElem?_set_ne (by omega), List.getElem?_set_ne (by omega)] at hb
            exact hadj i a b ha hb

/-- Witness for C1: dragging the shared middle boundary (index 1) of a
concrete two-layer model keeps the adjacency invariant. -/
theorem C1_boundaryDrag_preserves_adjacent_witness :
    adjacent (boundaryDrag ⟨50, 1000, 0, 20⟩ ⟨640, 200⟩ 1 150
      [⟨0, 10, 100⟩, ⟨10, 20, 150⟩]) := by
  apply C1_boundaryDrag_preserves_adjacent
  · norm_num
  · intro i a b ha hb
    rcases i with _ | _ | i
    · simp at ha hb
      subst ha
      subst hb
      norm_num
    · simp at hb
    · simp at ha

/-- C2: for valid axis limits and a positive canvas, the coordinate mapper
round-trips: `fromScreenX (toScreenX v) = v` and
`fromScreenY (toScreenY v) = v` (exactly, in rational arithmetic). -/
theorem C2_coordinate_roundtrip (A : AxisLimits) (D : Dims) (v : ℚ)
    (hx : A.xmin < A.xmax) (hy : A.ymin < A.ymax)
    (hw : 0 < D.width) (hh : 0 < D.height) :
    fromScreenX A D (toScreenX A D v) = v ∧
    fromScreenY A D (toScreenY A D v) = v := by
  have hx' : A.xmax - A.xmin ≠ 0 := (sub_pos.mpr hx).ne'
  have hy' : A.ymax - A.ymin ≠ 0 := (sub_pos.mpr hy).ne'
  have hw' : D.width ≠ 0 := hw.ne'
  have hh' : D.height ≠ 0 := hh.ne'
  constructor
  · unfold fromScreenX toScreenX
    field_simp
    ring
  · unfold fromScreenY toScreenY
    field_simp
    ring

/-- Witness for C2 at the default axis limits and a 640×480 canvas. -/
theorem C2_coordinate_roundtrip_witness :
    (50 : ℚ) < 1000 ∧ (0 : ℚ) < 200 ∧ (0 : ℚ) < 640 ∧ (0 : ℚ) < 480 ∧
    fromScreenX ⟨50, 1000, 0, 200⟩ ⟨640, 480⟩
      (toScreenX ⟨50, 1000, 0, 200⟩ ⟨640, 480⟩ 123) = 123 ∧
    fromScreenY ⟨50, 1000, 0, 200⟩ ⟨640, 480⟩
      (toScreenY ⟨50, 1000, 0, 200⟩ ⟨640, 480⟩ 7) = 7 :=
  ⟨by norm_num, by norm_num, by norm_num, by norm_num,
   (C2_coordinate_roundtrip ⟨50, 1000, 0, 200⟩ ⟨640, 480⟩ 123
     (by norm_num) (by norm_num) (by norm_num) (by norm_num)).1,
   (C2_coordinate_roundtrip ⟨50, 1000, 0, 200⟩ ⟨640, 480⟩ 7
     (by norm_num) (by norm_num) (by norm_num) (by norm_num)).2⟩

/-- C6: on a non-empty layer list, dragging boundary 0 writes
`fromScreenY(py)` to `layers[0].startDepth` clamped from above by
`layers[0].endDepth - 0.1`, and a drag below that bound yields exactly
`layers[0].endDepth - 0.1`. -/
theorem C6_boundary_zero_clamp (A : AxisLimits) (D : Dims) (y : ℚ)
    (l0 : Layer) (rest : List Layer) :
    boundaryDrag A D 0 y (l0 :: rest) =
      { l0 with startDepth := min (l0.endDepth - 1/10) (fromScreenY A D y) } :: rest ∧
    min (l0.endDepth - 1/10) (fromScreenY A D y) ≤ l0.endDepth - 1/10 ∧
    (fromScreenY A D y ≤ l0.endDepth - 1/10 →
      min (l0.endDepth - 1/10) (fromScreenY A D y) = fromScreenY A D y) ∧
    (l0.endDepth - 1/10 ≤ fromScreenY A D y →
      min (l0.endDepth - 1/10) (fromScreenY A D y) = l0.endDepth - 1/10) := by
  refine ⟨?_, min_le_left _ _, fun h => min_eq_right h, fun h => min_eq_left h⟩
  rw [boundaryDrag_zero A D y (l0 :: rest) l0 (by simp)]
  rfl

/-- Witness for C6: a drag far below `endDepth - 0.1` lands exactly on
`endDepth - 0.1 = 9.9`. -/
theorem C6_boundary_zero_clamp_witness :
    ((10 : ℚ) - 1/10 ≤ fromScreenY ⟨50, 1000, 0, 200⟩ ⟨640, 480⟩ 480) ∧
    boundaryDrag ⟨50, 1000, 0, 200⟩ ⟨640, 480⟩ 0 480 [⟨0, 10, 100⟩] =
      [⟨99/10, 10, 100⟩] := by
  constructor
  · norm_num [fromScreenY]
  · have h := C6_boundary_zero_clamp ⟨50, 1000, 0, 200⟩ ⟨640, 480⟩ 480 ⟨0, 10, 100⟩ []
    rw [h.1, h.2.2.2 (by norm_num [fromScreenY])]
    norm_num

/-- C7: a pointer-move while velocity-dragging layer `i` writes
`fromScreenX(px)` clamped to `[xmin, xmax]` into `layers[i].velocity`, and
the published tooltip carries exactly that clamped value; out-of-range
inputs are clamped, never rejected. -/
theorem C7_velocity_drag_clamps (A : AxisLimits) (D : Dims) (i : ℕ) (x y : ℚ)
    (ls : List Layer) (l : Layer) (hl : ls[i]? = some l) (hA : A.xmin ≤ A.xmax) :
    (velocityDrag A D i x y ls).1 =
      ls.set i { l with velocity := max A.xmin (min A.xmax (fromScreenX A D x)) } ∧
    ((velocityDrag A D i x y ls).1)[i]? =
      some { l with velocity := max A.xmin (min A.xmax (fromScreenX A D x)) } ∧
    (velocityDrag A D i x y ls).2 =
      ⟨HKind.velocity, max A.xmin (min A.xmax (fromScreenX A D x)), y,
        toScreenX A D (max A.xmin (min A.xmax (fromScreenX A D x)))⟩ ∧
    A.xmin ≤ max A.xmin (min A.xmax (fromScreenX A D x)) ∧
    max A.xmin (min A.xmax (fromScreenX A D x)) ≤ A.xmax := by
  have h1 : (velocityDrag A D i x y ls).1 =
      ls.set i { l with velocity := max A.xmin (min A.xmax (fromScreenX A D x)) } := by
    unfold velocityDrag
    rw [hl]
  refine ⟨h1, ?_, rfl, le_max_left _ _, max_le hA (min_le_left _ _)⟩
  rw [h1, List.getElem?_set_self (lt_length_of_some hl)]

/-- Witness for C7: a drag far right of the axis clamps to `xmax = 1000`,
in both the written layer and the tooltip. -/
theorem C7_velocity_drag_clamps_witness :
    ([(⟨0, 10, 100⟩ : Layer)][0]? = some (⟨0, 10, 100⟩ : Layer)) ∧ ((50 : ℚ) ≤ 1000) ∧
    (velocityDrag ⟨50, 1000, 0, 200⟩ ⟨640, 480⟩ 0 6400 5 [⟨0, 10, 100⟩]).1 =
      [⟨0, 10, 1000⟩] ∧
    (velocityDrag ⟨50, 1000, 0, 200⟩ ⟨640, 480⟩ 0 6400 5 [⟨0, 10, 100⟩]).2.value = 1000 := by
  refine ⟨rfl, by norm_num, ?_, ?_⟩
  · have h := C7_velocity_drag_clamps ⟨50, 1000, 0, 200⟩ ⟨640, 480⟩ 0 6400 5
      [⟨0, 10, 100⟩] ⟨0, 10, 100⟩ rfl (by norm_num)
    rw [h.1]
    norm_num [fromScreenX]
  · have h := C7_velocity_drag_clamps ⟨50, 1000, 0, 200⟩ ⟨640, 480⟩ 0 6400 5
      [⟨0, 10, 100⟩] ⟨0, 10, 100⟩ rfl (by norm_num)
    rw [h.2.2.1]
    norm_num [fromScreenX]

/-- C8: a pointer-up event — fired anywhere, the listener being registered
on `window` — unconditionally clears the drag state to `null`, whatever it
was. -/
theorem C8_pointer_up_clears (s : Option DragState) : handlePointerUp s = none :=
  rfl

/-- C9: ingesting the two-record file
`"0 2 0 208.308\n1.819 2 0 208.308\n"` commits exactly one layer
`{startDepth: 0, endDepth: 1.819, velocity: 208.308}`, the velocity coming
from the first record of the pair. -/
theorem C9_ingest_two_records :
    ingestLayerFile "0 2 0 208.308\n1.819 2 0 208.308\n" =
      some [⟨0, 1819/1000, 208308/1000⟩] := by
  have h : ("0 2 0 208.308\n1.819 2 0 208.308\n").toList =
      ['0', ' ', '2', ' ', '0', ' ', '2', '0', '8', '.', '3', '0', '8', '\n',
       '1', '.', '8', '1', '9', ' ', '2', ' ', '0', ' ', '2', '0', '8', '.', '3', '0', '8', '\n'] := rfl
  simp [ingestLayerFile, h, parseLine, jsNumber, jsSplitChar, jsTrim, digitsVal, pairLayers]
  norm_num

/-- C10: a velocity drag of layer `i` changes nothing but
`layers[i].velocity`: the length is unchanged, every other index is
untouched, and layer `i` keeps its `startDepth` and `endDepth`. -/
theorem C10_velocity_drag_frame (A : AxisLimits) (D : Dims) (i : ℕ) (x y : ℚ)
    (ls : List Layer) (l : Layer) (hl : ls[i]? = some l) :
    ((velocityDrag A D i x y ls).1).length = ls.length ∧
    (∀ j, j ≠ i → ((velocityDrag A D i x y ls).1)[j]? = ls[j]?) ∧
    (∀ l2, ((velocityDrag A D i x y ls).1)[i]? = some l2 →
      l2.startDepth = l.startDepth ∧ l2.endDepth = l.endDepth) := by
  have h1 : (velocityDrag A D i x y ls).1 =
      ls.set i { l with velocity := max A.xmin (min A.xmax (fromScreenX A D x)) } := by
    unfold velocityDrag
    rw [hl]
  refine ⟨by rw [h1, List.length_set], ?_, ?_⟩
  · intro j hj
    rw [h1, List.getElem?_set_ne (fun hh => hj hh.symm)]
  · intro l2 h2
    rw [h1, List.getElem?_set_self (lt_length_of_some hl)] at h2
    have h2' := Option.some.inj h2
    subst h2'
    exact ⟨rfl, rfl⟩

/-- Witness for C10: dragging layer 0's velocity leaves layer 1 untouched. -/
theorem C10_velocity_drag_frame_witness :
    ([(⟨0, 10, 100⟩ : Layer), ⟨10, 20, 150⟩][0]? = some (⟨0, 10, 100⟩ : Layer)) ∧
    ((velocityDrag ⟨50, 1000, 0, 200⟩ ⟨640, 480⟩ 0 320 5
      [⟨0, 10, 100⟩, ⟨10, 20, 150⟩]).1)[1]? = some (⟨10, 20, 150⟩ : Layer) := by
  refine ⟨rfl, ?_⟩
  rw [(C10_velocity_drag_frame ⟨50, 1000, 0, 200⟩ ⟨640, 480⟩ 0 320 5
    [⟨0, 10, 100⟩, ⟨10, 20, 150⟩] ⟨0, 10, 100⟩ rfl).2.1 1 (by norm_num)]
  rfl

/-- The depth pass of the hover engine matches exactly when some checked
boundary — index 0's `startDepth`, index `i > 0`'s `endDepth` — is within
strictly 10 px of the pointer's y (stated for an arbitrary starting index
and accumulator, matching the `forEach` fold). -/
theorem depthScan_isSome_iff (A : AxisLimits) (D : Dims) (x y : ℚ)
    (rest : List Layer) :
    ∀ (k : ℕ) (acc : Option HoveredLine),
      (depthScan A D x y k rest acc).isSome = true ↔
        acc.isSome = true ∨ ∃ j a, rest[j]? = some a ∧
          |y - toScreenY A D (if k + j = 0 then a.startDepth else a.endDepth)| < 10 := by
  induction rest with
  | nil =>
      intro k acc
      simp [depthScan]
  | cons l rest ih =>
      intro k acc
      simp only [depthScan]
      rw [ih (k + 1)]
      by_cases hc : |y - toScreenY A D (if k = 0 then l.startDepth else l.endDepth)| < 10
      · simp only [if_pos hc]
        constructor
        · intro _
          right
          refine ⟨0, l, by simp, ?_⟩
          simpa using hc
        · intro _
          left
          rfl
      · simp only [if_neg hc]
        constructor
        · rintro (hacc | ⟨j, a, hja, hcond⟩)
          · exact Or.inl hacc
          · right
            refine ⟨j + 1, a, by simpa using hja, ?_⟩
            rw [show k + (j + 1) = k + 1 + j by omega]
            exact hcond
        · rintro (hacc | ⟨j, a, hja, hcond⟩)
          · exact Or.inl hacc
          · cases j with
            | zero =>
                have hal : l = a := by simpa using hja
                subst hal
                rw [show k + 0 = k by omega] at hcond
                exact absurd hcond hc
            | succ j =>
                right
                refine ⟨j, a, by simpa using hja, ?_⟩
                rw [show k + 1 + j = k + (j + 1) by omega]
                exact hcond

/-- Counterexample to C4: in the two-layer model
`[{0,10,100}, {10,20,100}]` the pointer sits exactly on layer 0's
end-depth boundary (screen distance 0 < 10 px), yet the hover engine
reports nothing: the loop never checks layer 0's `endDepth`. -/
theorem C4_counterexample_first_interior_boundary_missed :
    (([⟨0, 10, 100⟩, ⟨10, 20, 100⟩] : List Layer)[0]?.map Layer.endDepth = some 10) ∧
    |100 - toScreenY ⟨50, 1000, 0, 20⟩ ⟨640, 200⟩ 10| < 10 ∧
    hoverScan ⟨50, 1000, 0, 20⟩ ⟨640, 200⟩ [⟨0, 10, 100⟩, ⟨10, 20, 100⟩] 300 100 =
      none := by
  refine ⟨rfl, by norm_num [toScreenY], ?_⟩
  norm_num [hoverScan, depthScan, velScan, toScreenX, toScreenY, abs_lt]

/-- C4 amended: when not dragging, the hover engine reports a depth hover
exactly when some CHECKED boundary is within strictly 10 px of the
pointer's y; the checked boundaries are layer 0's `startDepth` and, for
every index `i ≥ 1`, layer `i`'s `endDepth` — layer 0's `endDepth` is not
among them.  Any depth match is what `hoverScan` publishes. -/
theorem C4_amended_depth_hover_iff (A : AxisLimits) (D : Dims)
    (ls : List Layer) (x y : ℚ) :
    ((depthScan A D x y 0 ls none).isSome = true ↔
      ∃ i a, ls[i]? = some a ∧
        |y - toScreenY A D (if i = 0 then a.startDepth else a.endDepth)| < 10) ∧
    (∀ h, depthScan A D x y 0 ls none = some h → hoverScan A D ls x y = some h) := by
  constructor
  · have h := depthScan_isSome_iff A D x y ls 0 none
    simpa using h
  · intro h hh
    unfold hoverScan
    rw [hh]

/-- Witness for C4 amended: at 9 px below layer 0's start boundary the
depth pass matches, and the match is what `hoverScan` publishes. -/
theorem C4_amended_depth_hover_iff_witness :
    (depthScan ⟨50, 1000, 0, 20⟩ ⟨640, 200⟩ 300 9 0
      [⟨0, 10, 100⟩, ⟨10, 20, 100⟩] none).isSome = true ∧
    hoverScan ⟨50, 1000, 0, 20⟩ ⟨640, 200⟩ [⟨0, 10, 100⟩, ⟨10, 20, 100⟩] 300 9 =
      some ⟨HKind.depth, 0, 0, 300⟩ := by
  have hd : depthScan ⟨50, 1000, 0, 20⟩ ⟨640, 200⟩ 300 9 0
      [⟨0, 10, 100⟩, ⟨10, 20, 100⟩] none = some ⟨HKind.depth, 0, 0, 300⟩ := by
    norm_num [depthScan, toScreenY, abs_lt]
  constructor
  · rw [(C4_amended_depth_hover_iff ⟨50, 1000, 0, 20⟩ ⟨640, 200⟩
      [⟨0, 10, 100⟩, ⟨10, 20, 100⟩] 300 9).1]
    refine ⟨0, ⟨0, 10, 100⟩, rfl, ?_⟩
    norm_num [toScreenY]
  · exact (C4_amended_depth_hover_iff ⟨50, 1000, 0, 20⟩ ⟨640, 200⟩
      [⟨0, 10, 100⟩, ⟨10, 20, 100⟩] 300 9).2 _ hd

/-- Counterexample to C5: the layer editor's Y Max field applies
`ymax := 0` against `ymin = 0` — an ordering-inverting edit the claim says
is rejected — and the previous limits are not retained. -/
theorem C5_counterexample_rightplot_accepts_inverted :
    rightPlotAxisChange ⟨50, 1000, 0, 200⟩ Axis.ymax 0 = ⟨50, 1000, 0, 0⟩ ∧
    (rightPlotAxisChange ⟨50, 1000, 0, 200⟩ Axis.ymax 0).ymax ≤
      (rightPlotAxisChange ⟨50, 1000, 0, 200⟩ Axis.ymax 0).ymin ∧
    rightPlotAxisChange ⟨50, 1000, 0, 200⟩ Axis.ymax 0 ≠ ⟨50, 1000, 0, 200⟩ := by
  refine ⟨rfl, by norm_num [rightPlotAxisChange, setAxis], ?_⟩
  intro h
  have h2 : (rightPlotAxisChange ⟨50, 1000, 0, 200⟩ Axis.ymax 0).ymax = 200 := by
    rw [h]
  norm_num [rightPlotAxisChange, setAxis] at h2

/-- C5 amended: only the scatter editor (LeftPlot) validates axis edits —
an edit that would invert `xmin < xmax` or `ymin < ymax` is rejected and
the previous limits retained, a valid edit applies immediately; the layer
editor (RightPlot) applies every numeric edit unconditionally. -/
theorem C5_amended_axis_edit_validation (prev : AxisLimits) (axis : Axis) (v : ℚ) :
    ((setAxis prev axis v).xmax ≤ (setAxis prev axis v).xmin ∨
      (setAxis prev axis v).ymax ≤ (setAxis prev axis v).ymin →
      handleAxisLimitChange prev axis v = prev) ∧
    ((setAxis prev axis v).xmin < (setAxis prev axis v).xmax ∧
      (setAxis prev axis v).ymin < (setAxis prev axis v).ymax →
      handleAxisLimitChange prev axis v = setAxis prev axis v) ∧
    rightPlotAxisChange prev axis v = setAxis prev axis v := by
  refine ⟨fun h => ?_, fun h => ?_, rfl⟩
  · unfold handleAxisLimitChange
    rw [if_pos h]
  · unfold handleAxisLimitChange
    rw [if_neg (by push_neg; exact h)]

/-- Witness for C5 amended: from the scatter editor's default limits, the
inverting edit `ymin := 600` is rejected and the valid edit `ymax := 700`
applies. -/
theorem C5_amended_axis_edit_validation_witness :
    ((setAxis ⟨2/125, 3/5, 30, 500⟩ Axis.ymin 600).xmax ≤
        (setAxis ⟨2/125, 3/5, 30, 500⟩ Axis.ymin 600).xmin ∨
      (setAxis ⟨2/125, 3/5, 30, 500⟩ Axis.ymin 600).ymax ≤
        (setAxis ⟨2/125, 3/5, 30, 500⟩ Axis.ymin 600).ymin) ∧
    handleAxisLimitChange ⟨2/125, 3/5, 30, 500⟩ Axis.ymin 600 = ⟨2/125, 3/5, 30, 500⟩ ∧
    handleAxisLimitChange ⟨2/125, 3/5, 30, 500⟩ Axis.ymax 700 =
      ⟨2/125, 3/5, 30, 700⟩ := by
  have hrej : (setAxis ⟨2/125, 3/5, 30, 500⟩ Axis.ymin 600).xmax ≤
        (setAxis ⟨2/125, 3/5, 30, 500⟩ Axis.ymin 600).xmin ∨
      (setAxis ⟨2/125, 3/5, 30, 500⟩ Axis.ymin 600).ymax ≤
        (setAxis ⟨2/125, 3/5, 30, 500⟩ Axis.ymin 600).ymin := by
    right
    norm_num [setAxis]
  refine ⟨hrej,
    (C5_amended_axis_edit_validation ⟨2/125, 3/5, 30, 500⟩ Axis.ymin 600).1 hrej, ?_⟩
  have happ := (C5_amended_axis_edit_validation ⟨2/125, 3/5, 30, 500⟩ Axis.ymax 700).2.1
    (by norm_num [setAxis])
  rw [happ]
  rfl

/-- The `handlePlotClick` loop splices at the FIRST layer whose closed
screen span contains the click. -/
theorem plotClickSplitAux_first_match (A : AxisLimits) (D : Dims) (y : ℚ) :
    ∀ (ls : List Layer) (i : ℕ) (l : Layer),
      ls[i]? = some l →
      (∀ j b, j < i → ls[j]? = some b →
        ¬(toScreenY A D b.startDepth ≤ y ∧ y ≤ toScreenY A D b.endDepth)) →
      toScreenY A D l.startDepth ≤ y ∧ y ≤ toScreenY A D l.endDepth →
      plotClickSplitAux A D y ls =
        ls.take i ++ [⟨l.startDepth, fromScreenY A D y, l.velocity⟩,
          ⟨fromScreenY A D y, l.endDepth, l.velocity⟩] ++ ls.drop (i + 1) := by
  intro ls
  induction ls with
  | nil =>
      intro i l hl _ _
      simp at hl
  | cons hd tl ih =>
      intro i l hl hmiss hspan
      cases i with
      | zero =>
          have hdl : hd = l := by simpa using hl
          subst hdl
          simp only [plotClickSplitAux]
          rw [if_pos hspan]
          simp
      | succ i =>
          have hmiss0 := hmiss 0 hd (Nat.succ_pos i) (by simp)
          simp only [plotClickSplitAux]
          rw [if_neg hmiss0]
          have htl := ih i l (by simpa using hl)
            (fun j b hj hb => hmiss (j + 1) b (by omega) (by simpa using hb)) hspan
          rw [htl]
          simp

/-- When no layer's closed screen span contains the click, the
`handlePlotClick` loop leaves the list unchanged. -/
theorem plotClickSplitAux_no_match (A : AxisLimits) (D : Dims) (y : ℚ) :
    ∀ (ls : List Layer),
      (∀ (j : ℕ) (b : Layer), ls[j]? = some b →
        ¬(toScreenY A D b.startDepth ≤ y ∧ y ≤ toScreenY A D b.endDepth)) →
      plotClickSplitAux A D y ls = ls := by
  intro ls
  induction ls with
  | nil => intro _; rfl
  | cons hd tl ih =>
      intro hmiss
      simp only [plotClickSplitAux]
      rw [if_neg (hmiss 0 hd (by simp))]
      rw [ih (fun j b hb => hmiss (j + 1) b (by simpa using hb))]

/-- Counterexample to C3: a plot-area shift-click exactly at the single
layer's start boundary (click depth `d = startDepth = 0`) is NOT a no-op:
the closed containment test `y >= startY && y <= endY` accepts it and the
layer is split into a zero-thickness half plus the original span. -/
theorem C3_counterexample_plot_click_boundary_splits :
    fromScreenY ⟨50, 1000, 0, 10⟩ ⟨640, 100⟩ 0 =
      ([(⟨0, 10, 100⟩ : Layer)][0]?.map Layer.startDepth).getD 99 ∧
    handlePlotClick ⟨50, 1000, 0, 10⟩ ⟨640, 100⟩ true 0 [⟨0, 10, 100⟩] =
      [⟨0, 0, 100⟩, ⟨0, 10, 100⟩] := by
  constructor
  · norm_num [fromScreenY]
  · norm_num [handlePlotClick, plotClickSplitAux, toScreenY, fromScreenY]

/-- C3 amended: for a strictly interior depth both triggers replace the
layer with exactly its two halves `{s,d,v}`,`{d,e,v}`; the velocity-line
trigger is a no-op at or outside the boundaries; the plot-area trigger
splits the FIRST layer whose closed screen span contains the click (so a
boundary click splits, producing a degenerate half) and is a no-op only
when no span contains the click. -/
theorem C3_amended_split_behavior (A : AxisLimits) (D : Dims) (y : ℚ) (ls : List Layer) :
    (∀ (i : ℕ) (l : Layer), ls[i]? = some l →
      l.startDepth < fromScreenY A D y ∧ fromScreenY A D y < l.endDepth →
      splitAtVelocityLine A D i y ls =
        ls.take i ++ [⟨l.startDepth, fromScreenY A D y, l.velocity⟩,
          ⟨fromScreenY A D y, l.endDepth, l.velocity⟩] ++ ls.drop (i + 1)) ∧
    (∀ (i : ℕ) (l : Layer), ls[i]? = some l →
      fromScreenY A D y ≤ l.startDepth ∨ l.endDepth ≤ fromScreenY A D y →
      splitAtVelocityLine A D i y ls = ls) ∧
    (∀ (i : ℕ) (l : Layer), ls[i]? = some l →
      (∀ (j : ℕ) (b : Layer), j < i → ls[j]? = some b →
        ¬(toScreenY A D b.startDepth ≤ y ∧ y ≤ toScreenY A D b.endDepth)) →
      toScreenY A D l.startDepth ≤ y ∧ y ≤ toScreenY A D l.endDepth →
      handlePlotClick A D true y ls =
        ls.take i ++ [⟨l.startDepth, fromScreenY A D y, l.velocity⟩,
          ⟨fromScreenY A D y, l.endDepth, l.velocity⟩] ++ ls.drop (i + 1)) ∧
    ((∀ (j : ℕ) (b : Layer), ls[j]? = some b →
        ¬(toScreenY A D b.startDepth ≤ y ∧ y ≤ toScreenY A D b.endDepth)) →
      handlePlotClick A D true y ls = ls) := by
  refine ⟨?_, ?_, ?_, ?_⟩
  · intro i l hl hin
    simp only [splitAtVelocityLine, hl]
    rw [if_pos hin]
  · intro i l hl hout
    simp only [splitAtVelocityLine, hl]
    rw [if_neg ?_]
    rintro ⟨h1, h2⟩
    rcases hout with h | h
    · exact absurd h1 (not_lt.mpr h)
    · exact absurd h2 (not_lt.mpr h)
  · intro i l hl hmiss hspan
    unfold handlePlotClick
    rw [if_pos ⟨rfl, by have := lt_length_of_some hl; omega⟩]
    exact plotClickSplitAux_first_match A D y ls i l hl hmiss hspan
  · intro hmiss
    unfold handlePlotClick
    by_cases hlen : 0 < ls.length
    · rw [if_pos ⟨rfl, hlen⟩]
      exact plotClickSplitAux_no_match A D y ls hmiss
    · rw [if_neg (fun hc => hlen hc.2)]

/-- Witness for C3 amended: the spec's example — splitting `{0,10,100}` at
depth 4 gives `{0,4,100}`,`{4,10,100}` via both triggers, and the
velocity-line trigger at depth 0 is a no-op. -/
theorem C3_amended_split_behavior_witness :
    (([⟨0, 10, 100⟩] : List Layer)[0]? = some (⟨0, 10, 100⟩ : Layer)) ∧
    ((0 : ℚ) < fromScreenY ⟨50, 1000, 0, 10⟩ ⟨640, 100⟩ 40 ∧
      fromScreenY ⟨50, 1000, 0, 10⟩ ⟨640, 100⟩ 40 < 10) ∧
    splitAtVelocityLine ⟨50, 1000, 0, 10⟩ ⟨640, 100⟩ 0 40 [⟨0, 10, 100⟩] =
      [⟨0, 4, 100⟩, ⟨4, 10, 100⟩] ∧
    splitAtVelocityLine ⟨50, 1000, 0, 10⟩ ⟨640, 100⟩ 0 0 [⟨0, 10, 100⟩] =
      [⟨0, 10, 100⟩] ∧
    handlePlotClick ⟨50, 1000, 0, 10⟩ ⟨640, 100⟩ true 40 [⟨0, 10, 100⟩] =
      [⟨0, 4, 100⟩, ⟨4, 10, 100⟩] := by
  refine ⟨rfl, by norm_num [fromScreenY], ?_, ?_, ?_⟩
  · have h := (C3_amended_split_behavior ⟨50, 1000, 0, 10⟩ ⟨640, 100⟩ 40 [⟨0, 10, 100⟩]).1 0
      ⟨0, 10, 100⟩ rfl (by norm_num [fromScreenY])
    rw [h]
    norm_num [fromScreenY]
  · exact (C3_amended_split_behavior ⟨50, 1000, 0, 10⟩ ⟨640, 100⟩ 0 [⟨0, 10, 100⟩]).2.1 0
      ⟨0, 10, 100⟩ rfl (by norm_num [fromScreenY])
  · have h := (C3_amended_split_behavior ⟨50, 1000, 0, 10⟩ ⟨640, 100⟩ 40 [⟨0, 10, 100⟩]).2.2.1 0
      ⟨0, 10, 100⟩ rfl (by intro j b hj hb; omega) (by norm_num [toScreenY])
    rw [h]
    norm_num [fromScreenY]

end PixiPlots

